import Mathlib

/-
Verification of the contemporary_combinatorics benchmark programs.

The Go sources are embedded shallowly:
  - src/go/mem_bench.go : peak-RSS tracker (atomic max via CAS), the
    memory-intensive work unit, and the sequential / goroutine-per-task
    runners.
  - src/go/main.go and src/unnamed/part_000 : iterative big.Int Fibonacci.
  - src/unnamed/part_002 : Mandelbrot raster, sequential and worker-pool.

Modelling conventions:
  - MemoryMetric (float64 megabytes in Go) is modelled as the exact
    rationals; the tracker logic only compares and stores metric values,
    so any linear order is a faithful carrier for it.
  - Go panics are modelled as values of the GoPanic type, and a Go
    function that can panic returns Except GoPanic.
  - big.Int Fibonacci values are nonnegative, so they live in Nat, which
    is exact exactly as big.Int is.
  - Go ints are Int. The one arithmetic step where 64-bit wraparound is
    reachable from a function argument — numBytes := sizeMB*1024*1024 in
    memoryIntensiveTask — is modelled with an explicit wrap (wrap64); all
    other quantities reached in these programs stay far below 2 to the 63.
  - make([]byte, n) panics both for negative n and for n above the Go
    runtime constant maxAlloc; maxAlloc is platform-specific, so it is a
    parameter of the allocation model.
-/

set_option maxRecDepth 4000

/-- The kinds of Go runtime panic that the embedded code can raise. -/
inductive GoPanic where
  | closeOfClosedChannel
  | indexOutOfRange
  | makesliceLenOutOfRange
  | negativeWaitGroup
deriving DecidableEq, Repr

/- ### Peak tracker: mem_bench.go lines 32-81 -/

/-- One CAS-loop update of the stored peak (mem_bench.go lines 61-69):
the sample `current` replaces the stored value `old` only when it is
strictly greater, otherwise the stored value is kept. -/
def peakUpdate (old current : ℚ) : ℚ :=
  if current ≤ old then old else current

/-- The stored peak after `Start` stores the sample `init`
(mem_bench.go line 49) and the polling loop then applies `peakUpdate`
to each tick sample in order (mem_bench.go lines 57-73). -/
def trackerPeak (init : ℚ) (samples : List ℚ) : ℚ :=
  samples.foldl peakUpdate init

/-- The mutable state of a PeakMemoryTracker: the stored peak
(`peakRSS`, an atomic.Value holding a float64) and whether `stopChan`
has been closed. -/
structure PeakMemoryTracker where
  peakRSS : ℚ
  stopClosed : Bool
deriving DecidableEq, Repr

/-- mem_bench.go lines 39-46: a fresh tracker stores peak 0 and an open
stop channel. -/
def NewPeakMemoryTracker : PeakMemoryTracker :=
  { peakRSS := 0, stopClosed := false }

/-- mem_bench.go lines 48-50: `Start` records the current metric sample
as the initial peak (the spawned polling loop is modelled by
`trackerPeak` applied to the tick samples). -/
def PeakMemoryTracker.Start (t : PeakMemoryTracker) (sample : ℚ) :
    PeakMemoryTracker :=
  { t with peakRSS := sample }

/-- mem_bench.go lines 77-81: `Stop` closes `stopChan` — a panic
(close of closed channel) when it is already closed — waits for the
loop, and returns the stored peak. -/
def PeakMemoryTracker.Stop (t : PeakMemoryTracker) :
    Except GoPanic (ℚ × PeakMemoryTracker) :=
  if t.stopClosed then Except.error GoPanic.closeOfClosedChannel
  else Except.ok (t.peakRSS, { t with stopClosed := true })

/- ### Metric read: mem_bench.go lines 13-29 -/

/-- The one field of syscall.Rusage that getRSSMB reads. -/
structure Rusage where
  maxrss : Int
deriving DecidableEq, Repr

/-- mem_bench.go lines 13-29: `getRSSMB` returns 0 when Getrusage
errors; otherwise it converts ru_maxrss to megabytes, dividing by
1024*1024 on darwin (bytes) and by 1024 elsewhere (kilobytes). The
outcome of the Getrusage call is passed in as an `Except`. -/
def getRSSMB (goos : String) (call : Except Unit Rusage) : ℚ :=
  match call with
  | Except.error _ => 0
  | Except.ok ru =>
    let rss : ℚ := (ru.maxrss : ℚ)
    if goos = "darwin" then rss / (1024 * 1024) else rss / 1024

/- ### Fibonacci: main.go lines 21-32 (identical in src/unnamed/part_000) -/

/-- One iteration of the loop in computeFibonacci: temp = a; a = b;
b = temp + b, i.e. (a, b) becomes (b, a + b). -/
def fibStep (p : Nat × Nat) : Nat × Nat :=
  (p.2, p.1 + p.2)

/-- main.go lines 21-32: a = 0, b = 1, loop n times, return a.
big.Int is arbitrary precision and the values stay nonnegative, so the
state is a pair of naturals. -/
def computeFibonacci (n : Nat) : Nat :=
  (Nat.iterate fibStep n (0, 1)).1

/- ### Work unit: mem_bench.go lines 85-106 -/

/-- Go arithmetic on a 64-bit int wraps: this reduces an unbounded
integer into [-(2 to the 63), 2 to the 63). The literals are 2 to the
63 and 2 to the 64. Wrapping the exact product once equals wrapping
after every machine multiplication, since reduction mod 2 to the 64 is
a ring homomorphism. -/
def wrap64 (x : Int) : Int :=
  (x + 9223372036854775808) % 18446744073709551616 - 9223372036854775808

/-- mem_bench.go line 87: `make([]byte, numBytes)` — the Go runtime
panics (makeslice: len out of range) for a negative length and also for
a length above its maxAlloc bound (a platform constant, passed in as a
parameter); otherwise a zero-filled buffer of that length is produced
(represented by its length; the contents after the touch loop are
`touchedData`). -/
def makeSlice (maxAlloc : Nat) (len : Int) : Except GoPanic Nat :=
  if len < 0 ∨ (maxAlloc : Int) < len then
    Except.error GoPanic.makesliceLenOutOfRange
  else Except.ok len.toNat

/-- One iteration body of the page-touch loop (mem_bench.go line 92):
data[i] = (data[i] + 1) & 0xFF, on a buffer viewed as a function from
index to byte value. -/
def touchStep (data : Nat → Nat) (i : Nat) : Nat → Nat :=
  fun j => if j = i then (data i + 1) % 256 else data j

/-- mem_bench.go lines 91-93: `for i := 0; i < n; i += page`, written
with explicit fuel; fuel `n` suffices because `i` advances by at least
one per iteration when the page size is positive. -/
def touchLoop (page n : Nat) : (Nat → Nat) → Nat → Nat → (Nat → Nat)
  | data, _, 0 => data
  | data, i, fuel + 1 =>
    if i < n then touchLoop page n (touchStep data i) (i + page) fuel else data

/-- The buffer contents after `make([]byte, n)` (all zero) followed by
the page-touch loop. -/
def touchedData (page n : Nat) : Nat → Nat :=
  touchLoop page n (fun _ => 0) 0 n

/-- mem_bench.go line 96: the buffer is held for time.Sleep(200 ms). -/
def holdMillis : Nat := 200

/-- A Go slice index expression data[i] on the touched buffer of length
`n`: out-of-range indices panic (mem_bench.go lines 100-102 read
data[0], data[len/2], data[len-1]). -/
def sliceIndex (page n i : Nat) : Except GoPanic Nat :=
  if i < n then Except.ok (touchedData page n i)
  else Except.error GoPanic.indexOutOfRange

/-- The observable phases of one memoryIntensiveTask execution, in
program order: allocation of the buffer, the page-touch loop, the
200 ms hold, and the read-back of a few bytes. -/
inductive TaskEvent where
  | alloc (n : Nat)
  | touch
  | hold (ms : Nat)
  | readBack
deriving DecidableEq, Repr

/-- mem_bench.go lines 85-106: compute numBytes = sizeMB*1024*1024 in
wrapping 64-bit int arithmetic, allocate that many bytes, touch one
byte per page, hold for 200 ms, read data[0], data[len/2] and
data[len-1], and return their sum (the buffer is dropped on return).
The result pairs the list of phases that actually executed with the
returned total or the panic that interrupted the run. -/
def memoryIntensiveTask (maxAlloc page : Nat) (sizeMB : Int) :
    List TaskEvent × Except GoPanic Nat :=
  match makeSlice maxAlloc (wrap64 (sizeMB * 1024 * 1024)) with
  | Except.error e => ([], Except.error e)
  | Except.ok n =>
    match sliceIndex page n 0 with
    | Except.error e =>
      ([TaskEvent.alloc n, TaskEvent.touch, TaskEvent.hold holdMillis],
       Except.error e)
    | Except.ok b0 =>
      match sliceIndex page n (n / 2) with
      | Except.error e =>
        ([TaskEvent.alloc n, TaskEvent.touch, TaskEvent.hold holdMillis],
         Except.error e)
      | Except.ok b1 =>
        match sliceIndex page n (n - 1) with
        | Except.error e =>
          ([TaskEvent.alloc n, TaskEvent.touch, TaskEvent.hold holdMillis],
           Except.error e)
        | Except.ok b2 =>
          ([TaskEvent.alloc n, TaskEvent.touch, TaskEvent.hold holdMillis,
            TaskEvent.readBack],
           Except.ok (b0 + b1 + b2))

/- ### Runners: mem_bench.go lines 108-126 -/

/-- mem_bench.go lines 108-113: runSingleThreaded executes
memoryIntensiveTask(sizeMB) numTasks times in order (with a GC between
iterations); the list of unit sizes executed, in order. A nonpositive
count runs the loop zero times. -/
def runSingleThreadedUnits (numTasks sizeMB : Int) : List Int :=
  List.replicate numTasks.toNat sizeMB

/-- mem_bench.go lines 115-126: runMultiThreaded calls wg.Add(numTasks)
— which panics for a negative count before any goroutine starts — and
then spawns one goroutine per task, each executing a single
memoryIntensiveTask(sizeMB); the list of spawned concurrent units. -/
def runMultiThreadedSpawns (numTasks sizeMB : Int) :
    Except GoPanic (List Int) :=
  if numTasks < 0 then Except.error GoPanic.negativeWaitGroup
  else Except.ok (List.replicate numTasks.toNat sizeMB)

/-- The WaitGroup counter after wg.Add(added) and `completed` calls of
wg.Done; wg.Wait returns exactly when it reaches 0. -/
def wgCounter (added completed : Nat) : Nat :=
  added - completed

/-- The number of concurrent execution units runMultiThreaded creates. -/
def concurrentUnitCount (numTasks sizeMB : Int) : Nat :=
  match runMultiThreadedSpawns numTasks sizeMB with
  | Except.ok l => l.length
  | Except.error _ => 0

/-- From the spec sentence being checked against the code (refinement
comparison): runConcurrent takes a workerCount that defaults to the
number of available hardware execution contexts when unspecified. -/
def specDefaultWorkerCount (numCPU : Nat) : Nat :=
  numCPU

/- ### Mandelbrot: src/unnamed/part_002 -/

def SIZE : Nat := 4000

def MAX_ITER : Nat := 50

/-- part_002 lines 30-39: the escape iteration. The remaining fuel is
the loop counter; running out of fuel leaves `inside` true. Exact
rationals carry the float64 arithmetic. -/
def mandelIter (cr ci : ℚ) : ℚ → ℚ → Nat → Bool
  | _, _, 0 => true
  | zr, zi, k + 1 =>
    let zr2 := zr * zr
    let zi2 := zi * zi
    if zr2 + zi2 > 4 then false
    else mandelIter cr ci (zr2 - zi2 + cr) (2 * zr * zi + ci) k

/-- part_002 lines 23-39: whether pixel (x, y) is inside after MAX_ITER
iterations, with c1 = 2/SIZE, ci = y*c1 - 1.0, cr = x*c1 - 1.5 and
initial z = c. -/
def pointInside (x y : Nat) : Bool :=
  let c1 : ℚ := 2 / (SIZE : ℚ)
  let ci : ℚ := (y : ℚ) * c1 - 1
  let cr : ℚ := (x : ℚ) * c1 - 3 / 2
  mandelIter cr ci cr ci MAX_ITER

/-- part_002 lines 21-47: one raster row as a packed bitmap of
(SIZE+7)/8 bytes; row[x/8] |= 128 >> (x%8) for each inside pixel. -/
def computeRow (y : Nat) : List Nat :=
  (List.range SIZE).foldl
    (fun row x =>
      if pointInside x y then
        row.set (x / 8) (Nat.lor (row.getD (x / 8) 0) (Nat.shiftRight 128 (x % 8)))
      else row)
    (List.replicate ((SIZE + 7) / 8) 0)

/-- Writes result[y] = computeRow y for each y of `order`, starting from
`base` (the make([][]byte, SIZE) array, whose rows start nil). -/
def writeRows (base : List (List Nat)) (order : List Nat) : List (List Nat) :=
  order.foldl (fun res y => res.set y (computeRow y)) base

/-- part_002 lines 49-55: the sequential renderer writes the rows in
index order. -/
def mandelbrotSequential : List (List Nat) :=
  writeRows (List.replicate SIZE []) (List.range SIZE)

/-- part_002 lines 57-81: the worker-pool renderer. Each row index is
sent on the jobs channel exactly once and is written by exactly one
worker; the scheduling freedom is the order in which the row writes
land, so a run of the pool is `writeRows` along some permutation of the
row indices. -/
def mandelbrotThreadedWrites (order : List Nat) : List (List Nat) :=
  writeRows (List.replicate SIZE []) order

/- ### Helper lemmas -/

theorem peakUpdate_eq_max (old c : ℚ) : peakUpdate old c = max old c := by
  unfold peakUpdate
  rcases le_total c old with h | h
  · rw [if_pos h, max_eq_left h]
  · rcases eq_or_lt_of_le h with h | h
    · simp [h]
    · rw [if_neg (not_le.mpr h), max_eq_right h.le]

theorem trackerPeak_le (init : ℚ) (samples : List ℚ) :
    ∀ s ∈ init :: samples, s ≤ trackerPeak init samples := by
  induction samples generalizing init with
  | nil =>
    intro s hs
    simp only [List.mem_cons, List.not_mem_nil, or_false] at hs
    simp [trackerPeak, hs]
  | cons c t ih =>
    intro s hs
    have step : trackerPeak init (c :: t) = trackerPeak (max init c) t := by
      simp [trackerPeak, List.foldl_cons, peakUpdate_eq_max]
    rw [step]
    rcases List.mem_cons.mp hs with h | h
    · subst h
      exact le_trans (le_max_left s c) (ih (max s c) (max s c) (by simp))
    · rcases List.mem_cons.mp h with h | h
      · subst h
        exact le_trans (le_max_right init s) (ih (max init s) (max init s) (by simp))
      · exact ih (max init c) s (List.mem_cons_of_mem _ h)

theorem trackerPeak_mem (init : ℚ) (samples : List ℚ) :
    trackerPeak init samples ∈ init :: samples := by
  induction samples generalizing init with
  | nil => simp [trackerPeak]
  | cons c t ih =>
    have step : trackerPeak init (c :: t) = trackerPeak (max init c) t := by
      simp [trackerPeak, List.foldl_cons, peakUpdate_eq_max]
    rw [step]
    rcases List.mem_cons.mp (ih (max init c)) with h | h
    · rcases max_choice init c with hm | hm
      · rw [h, hm]; simp
      · rw [h, hm]; simp
    · simp [List.mem_cons_of_mem, h]

theorem trackerPeak_of_le (b : ℚ) (samples : List ℚ)
    (h : ∀ x ∈ samples, x ≤ b) : trackerPeak b samples = b := by
  induction samples with
  | nil => simp [trackerPeak]
  | cons c t ih =>
    have step : trackerPeak b (c :: t) = trackerPeak (max b c) t := by
      simp [trackerPeak, List.foldl_cons, peakUpdate_eq_max]
    rw [step, max_eq_left (h c (by simp))]
    exact ih fun x hx => h x (List.mem_cons_of_mem _ hx)

theorem computeFibonacci_state (n : Nat) :
    Nat.iterate fibStep n (0, 1) = (Nat.fib n, Nat.fib (n + 1)) := by
  induction n with
  | zero => simp [Nat.fib]
  | succ k ih =>
    rw [Function.iterate_succ_apply', ih]
    unfold fibStep
    simp only [Prod.mk.injEq]
    refine ⟨trivial, ?_⟩
    show Nat.fib k + Nat.fib (k + 1) = Nat.fib (k + 2)
    rw [Nat.fib_add_two]

/- ### Claim theorems -/

/-- C1: for the samples of one Start/Stop window (the initial sample
recorded by Start followed by the tick samples), the returned peak is
greater or equal to every individual sample and is itself one of them —
it is the maximum of the sequence — and a sample replaces the stored
peak only when it is strictly greater than the stored value. -/
theorem C1_peak_is_max (init : ℚ) (samples : List ℚ) :
    (∀ s ∈ init :: samples, s ≤ trackerPeak init samples) ∧
    trackerPeak init samples ∈ init :: samples ∧
    (∀ old c : ℚ, peakUpdate old c ≠ old → old < c) := by
  refine ⟨trackerPeak_le init samples, trackerPeak_mem init samples, ?_⟩
  intro old c h
  by_contra hlt
  exact h (by simp [peakUpdate, le_of_not_lt hlt])

/-- C2: proposing the samples [10, 50, 30, 80, 20] to the tracker CAS
update rule in any order (the linearization of any interleaving of the
concurrent writers) leaves the stored peak at 80. -/
theorem C2_cas_order_free (l : List ℚ) (h : l.Perm [10, 50, 30, 80, 20]) :
    trackerPeak 0 l = 80 := by
  have h80 : (80 : ℚ) ∈ l := h.mem_iff.mpr (by norm_num)
  have hge : (80 : ℚ) ≤ trackerPeak 0 l :=
    trackerPeak_le 0 l 80 (List.mem_cons_of_mem _ h80)
  have hle : trackerPeak 0 l ≤ 80 := by
    rcases List.mem_cons.mp (trackerPeak_mem 0 l) with hm | hm
    · rw [hm]; norm_num
    · have hmem5 : trackerPeak 0 l ∈ ([10, 50, 30, 80, 20] : List ℚ) :=
        h.mem_iff.mp hm
      simp only [List.mem_cons, List.not_mem_nil, or_false] at hmem5
      rcases hmem5 with e | e | e | e | e <;> rw [e] <;> norm_num
  exact le_antisymm hle hge

theorem C2_witness :
    ([20, 80, 30, 50, 10] : List ℚ).Perm [10, 50, 30, 80, 20] ∧
    trackerPeak 0 [20, 80, 30, 50, 10] = 80 := by
  have hp : ([20, 80, 30, 50, 10] : List ℚ).Perm [10, 50, 30, 80, 20] := by
    decide
  exact ⟨hp, C2_cas_order_free _ hp⟩

/-- C3 counterexample: calling Stop on a fresh tracker that was never
started does not fail — it silently returns the stored initial peak 0
(close succeeds on the never-closed channel, wg.Wait returns at once),
contradicting the claim that stop-before-start is turned into a
precondition failure rather than a silently returned value. -/
theorem C3_counterexample :
    PeakMemoryTracker.Stop NewPeakMemoryTracker =
      Except.ok ((0 : ℚ), { peakRSS := 0, stopClosed := true }) := rfl

/-- C3 amended: a second Stop after a successful Stop panics (close of
closed channel), but Stop without a prior Start does not fail: it
silently returns the initial stored peak 0. -/
theorem C3_stop_contract (t : PeakMemoryTracker) (r : ℚ)
    (u : PeakMemoryTracker)
    (h : PeakMemoryTracker.Stop t = Except.ok (r, u)) :
    PeakMemoryTracker.Stop u = Except.error GoPanic.closeOfClosedChannel ∧
    PeakMemoryTracker.Stop NewPeakMemoryTracker =
      Except.ok ((0 : ℚ), { peakRSS := 0, stopClosed := true }) := by
  refine ⟨?_, rfl⟩
  unfold PeakMemoryTracker.Stop at h
  by_cases hb : t.stopClosed = true
  · rw [if_pos hb] at h
    exact absurd h (by simp)
  · rw [if_neg hb] at h
    injection h with h2
    injection h2 with hr hu
    rw [← hu]
    unfold PeakMemoryTracker.Stop
    simp

theorem C3_stop_contract_witness :
    PeakMemoryTracker.Stop NewPeakMemoryTracker =
        Except.ok ((0 : ℚ), { peakRSS := 0, stopClosed := true }) ∧
    (PeakMemoryTracker.Stop { peakRSS := 0, stopClosed := true } =
        Except.error GoPanic.closeOfClosedChannel ∧
      PeakMemoryTracker.Stop NewPeakMemoryTracker =
        Except.ok ((0 : ℚ), { peakRSS := 0, stopClosed := true })) :=
  ⟨rfl, C3_stop_contract NewPeakMemoryTracker 0
    { peakRSS := 0, stopClosed := true } rfl⟩

/-- C4: when the Getrusage call errors, getRSSMB returns 0 — the error
is never propagated, so the sampler keeps running. -/
theorem C4_metric_error_zero (goos : String) (e : Unit) :
    getRSSMB goos (Except.error e) = 0 := rfl

/-- C10: computeFibonacci returns exactly the nth Fibonacci number
(F 0 = 0, F 1 = 1) for every n, exactly — big.Int is arbitrary
precision, modelled by Nat, so no overflow occurs. -/
theorem C10_fibonacci (n : Nat) : computeFibonacci n = Nat.fib n := by
  unfold computeFibonacci
  rw [computeFibonacci_state]

theorem multiple_gap (page i j : Nat) (hi : i % page = 0)
    (hj : j % page = 0) (h : i < j) : i + page ≤ j := by
  have d1 : page ∣ i := Nat.dvd_of_mod_eq_zero hi
  have d2 : page ∣ j := Nat.dvd_of_mod_eq_zero hj
  have d3 : page ∣ (j - i) := Nat.dvd_sub' d2 d1
  have h4 : page ≤ j - i := Nat.le_of_dvd (by omega) d3
  omega

theorem touchLoop_spec (page n : Nat) (hp : 0 < page) :
    ∀ (fuel i : Nat) (data : Nat → Nat),
      n ≤ i + fuel → i % page = 0 →
      (∀ j, data j = if j % page = 0 ∧ j < min i n then 1 else 0) →
      ∀ j, touchLoop page n data i fuel j =
        if j % page = 0 ∧ j < n then 1 else 0 := by
  intro fuel
  induction fuel with
  | zero =>
    intro i data hfuel hi hdata j
    have hmin : min i n = n := by omega
    have h0 : touchLoop page n data i 0 = data := rfl
    rw [h0, hdata j, hmin]
  | succ f ih =>
    intro i data hfuel hi hdata j
    show (if i < n then touchLoop page n (touchStep data i) (i + page) f
          else data) j = _
    by_cases hin : i < n
    · rw [if_pos hin]
      have hpg : (i + page) % page = 0 := by
        rw [Nat.add_mod_right]; exact hi
      apply ih (i + page) (touchStep data i) (by omega) hpg
      intro j2
      unfold touchStep
      by_cases hj : j2 = i
      · subst hj
        rw [if_pos rfl]
        have hzero : data j2 = 0 := by
          rw [hdata j2, if_neg]
          rintro ⟨-, hlt⟩
          omega
        rw [hzero, if_pos ⟨hi, by omega⟩]
      · rw [if_neg hj, hdata j2]
        by_cases hjm : j2 % page = 0
        · have hiff : j2 < min i n ↔ j2 < min (i + page) n := by
            constructor
            · intro hlt; omega
            · intro hlt
              have hji : j2 < i ∨ i < j2 := by omega
              rcases hji with hcase | hcase
              · omega
              · have := multiple_gap page i j2 hi hjm hcase
                omega
          by_cases hlt : j2 < min i n
          · rw [if_pos ⟨hjm, hlt⟩, if_pos ⟨hjm, hiff.mp hlt⟩]
          · have h1 : ¬ (j2 % page = 0 ∧ j2 < min i n) := fun hc => hlt hc.2
            have h2 : ¬ (j2 % page = 0 ∧ j2 < min (i + page) n) :=
              fun hc => hlt (hiff.mpr hc.2)
            rw [if_neg h1, if_neg h2]
        · have h1 : ¬ (j2 % page = 0 ∧ j2 < min i n) := fun hc => hjm hc.1
          have h2 : ¬ (j2 % page = 0 ∧ j2 < min (i + page) n) :=
            fun hc => hjm hc.1
          rw [if_neg h1, if_neg h2]
    · rw [if_neg hin]
      have hmin : min i n = n := by omega
      rw [hdata j, hmin]

theorem touchedData_spec (page n : Nat) (hp : 0 < page) (j : Nat) :
    touchedData page n j = if j % page = 0 ∧ j < n then 1 else 0 := by
  apply touchLoop_spec page n hp n 0 (fun _ => 0) (by omega) (Nat.zero_mod page)
  intro j2
  have hmin : min 0 n = 0 := by omega
  rw [hmin, if_neg]
  rintro ⟨-, hlt⟩
  omega

theorem foldl_set_getElem? (f : Nat → List Nat) (order : List Nat) :
    ∀ (base : List (List Nat)) (i : Nat),
      (order.foldl (fun res y => res.set y (f y)) base)[i]? =
        if i ∈ order ∧ i < base.length then some (f i)
        else base[i]? := by
  induction order with
  | nil =>
    intro base i
    have hcond : ¬ (i ∈ ([] : List Nat) ∧ i < base.length) := by simp
    rw [if_neg hcond]
    rfl
  | cons y t ih =>
    intro base i
    have hstep : (y :: t).foldl (fun res y => res.set y (f y)) base =
        t.foldl (fun res y => res.set y (f y)) (base.set y (f y)) := rfl
    rw [hstep, ih (base.set y (f y)) i, List.length_set]
    by_cases hit : i ∈ t ∧ i < base.length
    · rw [if_pos hit, if_pos ⟨List.mem_cons_of_mem y hit.1, hit.2⟩]
    · rw [if_neg hit]
      by_cases hiy : i = y
      · subst hiy
        rw [List.getElem?_set_self']
        by_cases hlen : i < base.length
        · rw [if_pos ⟨List.mem_cons_self i t, hlen⟩,
            List.getElem?_eq_getElem hlen]
          rfl
        · rw [if_neg (fun hc => hlen hc.2), List.getElem?_eq_none (by omega)]
          rfl
      · rw [List.getElem?_set_ne (fun he => hiy he.symm)]
        have hcond : ¬ (i ∈ y :: t ∧ i < base.length) := by
          rintro ⟨hm, hl⟩
          rcases List.mem_cons.mp hm with he | hmt
          · exact hiy he
          · exact hit ⟨hmt, hl⟩
        rw [if_neg hcond]

theorem mandelbrot_rows (order : List Nat) (h : order.Perm (List.range SIZE)) :
    ∀ i : Nat, (mandelbrotThreadedWrites order)[i]? =
      if i < SIZE then some (computeRow i) else none := by
  intro i
  have hw : mandelbrotThreadedWrites order =
      order.foldl (fun res y => res.set y (computeRow y))
        (List.replicate SIZE []) := rfl
  rw [hw, foldl_set_getElem? computeRow order (List.replicate SIZE []) i,
    List.length_replicate]
  by_cases hi : i < SIZE
  · rw [if_pos ⟨h.mem_iff.mpr (List.mem_range.mpr hi), hi⟩, if_pos hi]
  · rw [if_neg (fun hc => hi hc.2), if_neg hi]
    apply List.getElem?_eq_none
    rw [List.length_replicate]
    omega

/-- C5 counterexample: on a machine with 4 hardware execution contexts,
runMultiThreaded with a batch of 10 units starts 10 concurrent
execution units — one goroutine per unit, with no workerCount
parameter, no shared queue and no default to the CPU count. -/
theorem C5_counterexample :
    concurrentUnitCount 10 50 = 10 ∧
    specDefaultWorkerCount 4 = 4 ∧
    concurrentUnitCount 10 50 ≠ specDefaultWorkerCount 4 := by
  refine ⟨rfl, rfl, by decide⟩

/-- C5 amended: runMultiThreaded spawns exactly one goroutine per
WorkUnit (numTasks concurrent units, each executing one unit of size
sizeMB — not a bounded pool of workerCount workers), and returns only
once every unit has completed: the WaitGroup counter starts at numTasks
and reaches 0 exactly when all numTasks units have called Done. -/
theorem C5_one_goroutine_per_task (numTasks sizeMB : Int)
    (h : 0 ≤ numTasks) (k : Nat) (hk : k ≤ numTasks.toNat) :
    runMultiThreadedSpawns numTasks sizeMB =
        Except.ok (List.replicate numTasks.toNat sizeMB) ∧
    concurrentUnitCount numTasks sizeMB = numTasks.toNat ∧
    (∀ u ∈ List.replicate numTasks.toNat sizeMB, u = sizeMB) ∧
    (wgCounter numTasks.toNat k = 0 ↔ k = numTasks.toNat) := by
  have hsp : runMultiThreadedSpawns numTasks sizeMB =
      Except.ok (List.replicate numTasks.toNat sizeMB) := by
    unfold runMultiThreadedSpawns
    rw [if_neg (not_lt.mpr h)]
  refine ⟨hsp, ?_, ?_, ?_⟩
  · unfold concurrentUnitCount
    rw [hsp]
    exact List.length_replicate _ _
  · intro u hu
    exact List.eq_of_mem_replicate hu
  · unfold wgCounter
    omega

theorem C5_one_goroutine_per_task_witness :
    0 ≤ (3 : Int) ∧ 3 ≤ (3 : Int).toNat ∧
    (runMultiThreadedSpawns 3 50 =
        Except.ok (List.replicate (3 : Int).toNat 50) ∧
      concurrentUnitCount 3 50 = (3 : Int).toNat ∧
      (wgCounter (3 : Int).toNat 3 = 0 ↔ 3 = (3 : Int).toNat)) := by
  have h := C5_one_goroutine_per_task 3 50 (by decide) 3 (by decide)
  exact ⟨by decide, by decide, h.1, h.2.1, h.2.2.2⟩

theorem wrap64_eq_self (x : Int) (h1 : -(2 ^ 63) ≤ x) (h2 : x < 2 ^ 63) :
    wrap64 x = x := by
  have e : (2 : Int) ^ 63 = 9223372036854775808 := by norm_num
  rw [e] at h1 h2
  unfold wrap64
  omega

/-- C6 counterexample: a unit size of 0 is not rejected and not clamped
to 1 — the unit begins (the zero-length allocation succeeds, the touch
loop runs, the 200 ms hold happens) and only then panics with index out
of range at the read-back of data[0], i.e. the run fails partway
through a unit rather than failing fast before work starts. The
maxAlloc bound is instantiated at 2 to the 48, the 64-bit Linux value;
a zero-length allocation succeeds for every bound. -/
theorem C6_counterexample :
    makeSlice (281474976710656) (wrap64 ((0 : Int) * 1024 * 1024)) =
      Except.ok 0 ∧
    (memoryIntensiveTask 281474976710656 4096 0).1 =
      [TaskEvent.alloc 0, TaskEvent.touch, TaskEvent.hold 200] ∧
    (memoryIntensiveTask 281474976710656 4096 0).2 =
      Except.error GoPanic.indexOutOfRange := by
  refine ⟨rfl, rfl, rfl⟩

/-- C6 amended: nonpositive configuration is not validated up front.
A unit size of 0 allocates an empty buffer, holds it, and then panics
at the read-back step — partway through the unit; a negative unit size
whose wrapped 64-bit byte count is still negative (any s with
-(2 to the 43) ≤ s < 0) panics at the allocation itself, while more
extreme negative sizes can wrap to a nonnegative byte count and run as
that size; a negative task count panics inside wg.Add before any
goroutine starts; a task count of 0 is accepted and runs no units at
all (neither clamped to 1 nor an error). -/
theorem C6_invalid_config (maxAlloc page : Nat) (s t : Int)
    (hsneg : s < 0) (hsbound : -(2 ^ 43) ≤ s) (htneg : t < 0) :
    (memoryIntensiveTask maxAlloc page 0).1 =
        [TaskEvent.alloc 0, TaskEvent.touch, TaskEvent.hold holdMillis] ∧
    (memoryIntensiveTask maxAlloc page 0).2 =
        Except.error GoPanic.indexOutOfRange ∧
    memoryIntensiveTask maxAlloc page s =
        ([], Except.error GoPanic.makesliceLenOutOfRange) ∧
    runMultiThreadedSpawns t 50 = Except.error GoPanic.negativeWaitGroup ∧
    runMultiThreadedSpawns 0 50 = Except.ok [] := by
  have e43 : (2 : Int) ^ 43 = 8796093022208 := by norm_num
  rw [e43] at hsbound
  have hneg : s * 1024 * 1024 < 0 := by
    have h1 : s * 1024 < 0 := mul_neg_of_neg_of_pos hsneg (by norm_num)
    exact mul_neg_of_neg_of_pos h1 (by norm_num)
  have hwrap : wrap64 (s * 1024 * 1024) = s * 1024 * 1024 := by
    apply wrap64_eq_self
    · have e63 : -((2 : Int) ^ 63) = -9223372036854775808 := by norm_num
      rw [e63]
      omega
    · have e63 : (2 : Int) ^ 63 = 9223372036854775808 := by norm_num
      rw [e63]
      omega
  have hms : makeSlice maxAlloc (wrap64 (s * 1024 * 1024)) =
      Except.error GoPanic.makesliceLenOutOfRange := by
    rw [hwrap]
    unfold makeSlice
    rw [if_pos (Or.inl hneg)]
  have hw0 : wrap64 ((0 : Int) * 1024 * 1024) = 0 := by decide
  have hms0 : makeSlice maxAlloc (wrap64 ((0 : Int) * 1024 * 1024)) =
      Except.ok 0 := by
    rw [hw0]
    unfold makeSlice
    rw [if_neg (by omega)]
    rfl
  have hsi : sliceIndex page 0 0 = Except.error GoPanic.indexOutOfRange := by
    unfold sliceIndex
    rw [if_neg (by omega)]
  refine ⟨?_, ?_, ?_, ?_, rfl⟩
  · unfold memoryIntensiveTask
    rw [hms0]
    simp only []
    rw [hsi]
  · unfold memoryIntensiveTask
    rw [hms0]
    simp only []
    rw [hsi]
  · unfold memoryIntensiveTask
    rw [hms]
  · unfold runMultiThreadedSpawns
    rw [if_pos htneg]

theorem C6_invalid_config_witness :
    (-1 : Int) < 0 ∧ -(2 ^ 43 : Int) ≤ -1 ∧ (-2 : Int) < 0 ∧
    ((memoryIntensiveTask 281474976710656 4096 0).2 =
        Except.error GoPanic.indexOutOfRange ∧
      memoryIntensiveTask 281474976710656 4096 (-1) =
        ([], Except.error GoPanic.makesliceLenOutOfRange) ∧
      runMultiThreadedSpawns (-2) 50 =
        Except.error GoPanic.negativeWaitGroup) := by
  have h := C6_invalid_config 281474976710656 4096 (-1) (-2) (by decide)
    (by decide) (by decide)
  exact ⟨by decide, by decide, by decide, h.2.1, h.2.2.1, h.2.2.2.1⟩

/-- C7 counterexample: the claim fails at the representable positive
unit size 2 to the 44: Go computes numBytes = sizeMB*1024*1024 in a
wrapping 64-bit int, so the byte count wraps to 0, the unit allocates
an empty buffer and panics at the read-back of data[0] instead of
completing — so it is not true that every positive unit size allocates
a buffer of the requested size, reads back and releases. maxAlloc is
instantiated at 2 to the 48 (the 64-bit Linux value), page at 4096. -/
theorem C7_counterexample :
    0 < (17592186044416 : Int) ∧
    wrap64 ((17592186044416 : Int) * 1024 * 1024) = 0 ∧
    (memoryIntensiveTask 281474976710656 4096 17592186044416).1 =
      [TaskEvent.alloc 0, TaskEvent.touch, TaskEvent.hold 200] ∧
    (memoryIntensiveTask 281474976710656 4096 17592186044416).2 =
      Except.error GoPanic.indexOutOfRange := by
  refine ⟨by decide, by decide, rfl, rfl⟩

/-- C7 amended: for any positive page size and any positive unit size
whose byte count sizeMB*1024*1024 neither wraps the 64-bit int (it is
below 2 to the 63) nor exceeds the runtime allocation bound maxAlloc,
the work unit allocates a contiguous buffer of sizeMB*1024*1024 bytes,
writes a byte at the start of every page-size stride across the whole
buffer, holds the buffer for the fixed 200 ms duration (inside the
100-200 ms design range), reads a few bytes back successfully, and
returns (the buffer is dropped on return). -/
theorem C7_work_unit (maxAlloc page : Nat) (sizeMB : Int) (hp : 0 < page)
    (hs : 0 < sizeMB) (hw : sizeMB * 1024 * 1024 < 2 ^ 63)
    (hm : sizeMB * 1024 * 1024 ≤ (maxAlloc : Int)) :
    makeSlice maxAlloc (sizeMB * 1024 * 1024) =
        Except.ok (sizeMB * 1024 * 1024).toNat ∧
    (∀ k : Nat, k * page < (sizeMB * 1024 * 1024).toNat →
        touchedData page (sizeMB * 1024 * 1024).toNat (k * page) = 1) ∧
    (100 ≤ holdMillis ∧ holdMillis ≤ 200) ∧
    (memoryIntensiveTask maxAlloc page sizeMB).1 =
        [TaskEvent.alloc (sizeMB * 1024 * 1024).toNat, TaskEvent.touch,
         TaskEvent.hold holdMillis, TaskEvent.readBack] ∧
    (∃ total, (memoryIntensiveTask maxAlloc page sizeMB).2 =
        Except.ok total) := by
  have hx : (0 : Int) < sizeMB * 1024 * 1024 := by positivity
  have hn : 0 < (sizeMB * 1024 * 1024).toNat := by omega
  have hwrap : wrap64 (sizeMB * 1024 * 1024) = sizeMB * 1024 * 1024 := by
    apply wrap64_eq_self _ _ hw
    omega
  have hms : makeSlice maxAlloc (sizeMB * 1024 * 1024) =
      Except.ok (sizeMB * 1024 * 1024).toNat := by
    unfold makeSlice
    rw [if_neg (by omega)]
  have hi0 : sliceIndex page (sizeMB * 1024 * 1024).toNat 0 =
      Except.ok (touchedData page (sizeMB * 1024 * 1024).toNat 0) := by
    unfold sliceIndex
    rw [if_pos hn]
  have hi1 : sliceIndex page (sizeMB * 1024 * 1024).toNat
      ((sizeMB * 1024 * 1024).toNat / 2) =
      Except.ok (touchedData page (sizeMB * 1024 * 1024).toNat
        ((sizeMB * 1024 * 1024).toNat / 2)) := by
    unfold sliceIndex
    rw [if_pos (Nat.div_lt_self hn (by norm_num))]
  have hi2 : sliceIndex page (sizeMB * 1024 * 1024).toNat
      ((sizeMB * 1024 * 1024).toNat - 1) =
      Except.ok (touchedData page (sizeMB * 1024 * 1024).toNat
        ((sizeMB * 1024 * 1024).toNat - 1)) := by
    unfold sliceIndex
    rw [if_pos (by omega)]
  have htask : memoryIntensiveTask maxAlloc page sizeMB =
      ([TaskEvent.alloc (sizeMB * 1024 * 1024).toNat, TaskEvent.touch,
        TaskEvent.hold holdMillis, TaskEvent.readBack],
       Except.ok (touchedData page (sizeMB * 1024 * 1024).toNat 0 +
         touchedData page (sizeMB * 1024 * 1024).toNat
           ((sizeMB * 1024 * 1024).toNat / 2) +
         touchedData page (sizeMB * 1024 * 1024).toNat
           ((sizeMB * 1024 * 1024).toNat - 1))) := by
    unfold memoryIntensiveTask
    rw [hwrap, hms]
    simp only []
    rw [hi0, hi1, hi2]
  refine ⟨hms, ?_, by norm_num [holdMillis], ?_, ?_⟩
  · intro k hk
    rw [touchedData_spec page _ hp (k * page),
      if_pos ⟨Nat.mul_mod_left k page, hk⟩]
  · rw [htask]
  · exact ⟨_, by rw [htask]⟩

theorem C7_work_unit_witness :
    0 < 4096 ∧ 0 < (1 : Int) ∧
    (1 : Int) * 1024 * 1024 < 2 ^ 63 ∧
    (1 : Int) * 1024 * 1024 ≤ ((281474976710656 : Nat) : Int) ∧
    (makeSlice 281474976710656 ((1 : Int) * 1024 * 1024) =
        Except.ok ((1 : Int) * 1024 * 1024).toNat ∧
      (100 ≤ holdMillis ∧ holdMillis ≤ 200) ∧
      (memoryIntensiveTask 281474976710656 4096 1).1 =
        [TaskEvent.alloc ((1 : Int) * 1024 * 1024).toNat, TaskEvent.touch,
         TaskEvent.hold holdMillis, TaskEvent.readBack]) := by
  have h := C7_work_unit 281474976710656 4096 1 (by decide) (by decide)
    (by decide) (by decide)
  exact ⟨by decide, by decide, by decide, by decide, h.1, h.2.2.1, h.2.2.2.1⟩

/-- C8: with a batch of zero work units both runners execute no
WorkUnit at all (the sequential loop body never runs; no goroutine is
spawned), and a tracker whose window sees only samples at or below the
pre-run baseline returns exactly the baseline as its peak. -/
theorem C8_zero_batch (sizeMB : Int) (b : ℚ) (samples : List ℚ)
    (h : ∀ x ∈ samples, x ≤ b) :
    runSingleThreadedUnits 0 sizeMB = [] ∧
    runMultiThreadedSpawns 0 sizeMB = Except.ok [] ∧
    trackerPeak b samples = b := by
  exact ⟨rfl, rfl, trackerPeak_of_le b samples h⟩

theorem C8_zero_batch_witness :
    (∀ x ∈ ([1, 5] : List ℚ), x ≤ 5) ∧
    (runSingleThreadedUnits 0 50 = [] ∧
      runMultiThreadedSpawns 0 50 = Except.ok [] ∧
      trackerPeak 5 [1, 5] = 5) := by
  have hx : ∀ x ∈ ([1, 5] : List ℚ), x ≤ 5 := by decide
  exact ⟨hx, C8_zero_batch 50 5 [1, 5] hx⟩

/-- C9: whatever order the worker pool lands its row writes in (any
permutation of the row indices — each row is sent on the jobs channel
once and written by exactly one worker), the threaded renderer produces
exactly the raster of the sequential one, and row y of the result is
computeRow y for every y below SIZE. -/
theorem C9_mandelbrot_equiv (order : List Nat)
    (h : order.Perm (List.range SIZE)) :
    mandelbrotThreadedWrites order = mandelbrotSequential ∧
    ∀ y : Nat, y < SIZE →
      (mandelbrotThreadedWrites order)[y]? = some (computeRow y) := by
  have hrows := mandelbrot_rows order h
  have hseq := mandelbrot_rows (List.range SIZE) (List.Perm.refl _)
  constructor
  · apply List.ext_getElem?
    intro i
    rw [hrows i]
    have hs : mandelbrotSequential =
        mandelbrotThreadedWrites (List.range SIZE) := rfl
    rw [hs, hseq i]
  · intro y hy
    rw [hrows y, if_pos hy]

theorem C9_mandelbrot_equiv_witness :
    (List.range SIZE).Perm (List.range SIZE) ∧
    mandelbrotThreadedWrites (List.range SIZE) = mandelbrotSequential :=
  ⟨List.Perm.refl _,
   (C9_mandelbrot_equiv (List.range SIZE) (List.Perm.refl _)).1⟩
